import Mathlib

/-!
Verification of the CommandRunner process engine of run-command-mcp.

The embedding below mirrors src/tools/command.js: the process registry
(a JS Map from process id to a processInfo object), the stream / exit /
error / timeout callbacks wired by startCommand, the query operations
getOutput, killProcess and clearProcesses, and the two resolver payloads
of the blocking runCommand. JS strings are lists of characters, JS
timestamps are abstract naturals, and the asynchronous callbacks of one
tracked record are an explicit event semantics (a step function guarded
by the timer / stream state of the record).
-/

namespace RunCommandMcp

/-- JS strings, modelled as lists of characters. -/
abbrev Str := List Char

/-- The status strings a processInfo record can carry. -/
inductive Status where
  | running
  | completed
  | failed
  | killed
  | error
  | timed_out
  deriving DecidableEq

/-- One entry of `this.processes`: the processInfo object built by
startCommand, with its later mutable fields. -/
structure ProcessInfo where
  id : Str
  command : Str
  status : Status
  stdout : Str
  stderr : Str
  exit_code : Option Int
  error : Option Str
  started_at : Nat
  finished_at : Option Nat
  timed_out : Bool
  pid : Option Nat
  deriving DecidableEq

/-- The registry `this.processes`: a JS Map in insertion order. -/
abbrev Registry := List (Str × ProcessInfo)

/-- Map.get: the value stored under a key, if any. -/
def regFind : Registry → Str → Option ProcessInfo
  | [], _ => none
  | kv :: rest, k => if kv.1 = k then some kv.2 else regFind rest k

/-- Map.set: overwrite in place if the key is present, append otherwise. -/
def regSet : Registry → Str → ProcessInfo → Registry
  | [], k, p => [(k, p)]
  | kv :: rest, k, p => if kv.1 = k then (kv.1, p) :: rest else kv :: regSet rest k p

/-- Map.delete: remove the entry stored under a key. -/
def regDelete : Registry → Str → Registry
  | [], _ => []
  | kv :: rest, k => if kv.1 = k then rest else kv :: regDelete rest k

/-- The whitespace characters stripped by JavaScript trim
(core ASCII subset: space, tab, newline, carriage return, vertical and form feed). -/
def isJsSpace (c : Char) : Bool :=
  c == ' ' || c == '\t' || c == '\n' || c == '\r' || c == '\x0B' || c == '\x0C'

/-- JavaScript s.trim(): leading and trailing whitespace removed. -/
def trim (s : Str) : Str :=
  ((s.dropWhile isJsSpace).reverse.dropWhile isJsSpace).reverse

/-- JavaScript s.split on the newline character. The result is never empty
and its parts contain no newline. -/
def splitOnNl : Str → List Str
  | [] => [[]]
  | c :: cs =>
    if c = '\n' then
      [] :: splitOnNl cs
    else
      match splitOnNl cs with
      | [] => [[c]]
      | p :: ps => (c :: p) :: ps

/-- JavaScript parts.join with the newline character. -/
def joinNl : List Str → Str
  | [] => []
  | [p] => p
  | p :: ps => p ++ '\n' :: joinNl ps

/-- The tail projection of getOutput: lines.slice(-tail).join when
tail > 0, the untouched buffer otherwise. -/
def jsTail (tail : Nat) (s : Str) : Str :=
  if 0 < tail then
    joinNl ((splitOnNl s).drop ((splitOnNl s).length - tail))
  else s

/-- Number of lines of a string, as counted by splitting on newline. -/
def numLines (s : Str) : Nat := (splitOnNl s).length

/-- The processInfo object as startCommand creates it, in state running,
with empty buffers and a null finished_at. -/
def initInfo (processId command : Str) (t : Nat) (pid : Option Nat) : ProcessInfo :=
  { id := processId, command := command, status := Status.running, stdout := [],
    stderr := [], exit_code := none, error := none, started_at := t,
    finished_at := none, timed_out := false, pid := pid }

/-- The stdout data callback: append the chunk to the stored buffer. -/
def onStdout (d : Str) (p : ProcessInfo) : ProcessInfo :=
  { p with stdout := p.stdout ++ d }

/-- The stderr data callback: append the chunk to the stored buffer. -/
def onStderr (d : Str) (p : ProcessInfo) : ProcessInfo :=
  { p with stderr := p.stderr ++ d }

/-- The timeout callback of startCommand: set timed_out and force the
status to timed_out, with no status guard and no finished_at stamp. -/
def onTimeoutCb (p : ProcessInfo) : ProcessInfo :=
  { p with timed_out := true, status := Status.timed_out }

/-- The close callback of startCommand: record the exit code, stamp
finished_at, and move a still-running record to completed or failed. -/
def onClose (code : Option Int) (t : Nat) (p : ProcessInfo) : ProcessInfo :=
  let newStatus :=
    if p.status = Status.running then
      (if code = some 0 then Status.completed else Status.failed)
    else p.status
  { p with exit_code := code, finished_at := some t, status := newStatus }

/-- The error callback of startCommand: record the message, force the
status to error and stamp finished_at, with no status guard. -/
def onError (msg : Str) (t : Nat) (p : ProcessInfo) : ProcessInfo :=
  { p with error := some msg, status := Status.error, finished_at := some t }

/-- The mutation killProcess performs after a successful signal send. -/
def onKill (t : Nat) (p : ProcessInfo) : ProcessInfo :=
  { p with status := Status.killed, finished_at := some t }

/-- The JSON payload startCommand returns to its caller. -/
structure StartResult where
  success : Bool
  process_id : Str
  pid : Option Nat
  command : Str
  status : Status
  message : String
  deriving DecidableEq

/-- The fixed message of the startCommand payload. -/
def startMessage : String :=
  "Command started. Use get_output with this process_id to check status and logs."

/-- startCommand: build the processInfo record, register it under the fresh
id, spawn the child (its pid, possibly undefined, is the pid argument), and
return the fixed success payload. The timeout argument only arms the timer
of the asynchronous event semantics; it does not affect the payload. -/
def startCommand (st : Registry) (command : Str) (timeout : Nat) (freshId : Str)
    (t : Nat) (pid : Option Nat) : StartResult × Registry :=
  ( { success := true, process_id := freshId, pid := pid, command := command,
      status := Status.running, message := startMessage },
    regSet st freshId (initInfo freshId command t pid) )

/-- The success payload of getOutput, with the tail projection and the
read-time trimming applied to both buffers. -/
structure OutputView where
  process_id : Str
  pid : Option Nat
  command : Str
  status : Status
  exit_code : Option Int
  stdout : Str
  stderr : Str
  error : Option Str
  started_at : Nat
  finished_at : Option Nat
  timed_out : Bool
  deriving DecidableEq

/-- getOutput either fails with the not-found payload or answers a view. -/
inductive GetOutputResult where
  | notFound (process_id : Str)
  | ok (view : OutputView)
  deriving DecidableEq

/-- The view getOutput builds from a stored record: the stored buffers are
projected to the last tail lines when tail > 0 and trimmed at read time. -/
def viewOf (processId : Str) (p : ProcessInfo) (tail : Nat) : OutputView :=
  { process_id := processId, pid := p.pid, command := p.command,
    status := p.status, exit_code := p.exit_code,
    stdout := trim (jsTail tail p.stdout), stderr := trim (jsTail tail p.stderr),
    error := p.error, started_at := p.started_at, finished_at := p.finished_at,
    timed_out := p.timed_out }

/-- getOutput: look the id up and answer the projected view; the registry
is returned unchanged on both paths (the operation only reads the record). -/
def getOutput (st : Registry) (processId : Str) (tail : Nat) :
    GetOutputResult × Registry :=
  match regFind st processId with
  | none => (GetOutputResult.notFound processId, st)
  | some p => (GetOutputResult.ok (viewOf processId p tail), st)

/-- The payloads killProcess can answer. -/
inductive KillOutcome where
  | notFound
  | notRunning (status : Status)
  | killed
  | killFailed (msg : Str)
  deriving DecidableEq

/-- killProcess. The signalErr argument models the OS outcome of
process.kill: none when the signal is delivered, some message when the send
throws. The Bool of the result records whether a signal send was attempted.
On the not-found, not-running and failed-send paths the registry is
returned untouched; only a successful send mutates the record. -/
def killProcess (st : Registry) (processId : Str) (t : Nat)
    (signalErr : Option Str) : KillOutcome × Registry × Bool :=
  match regFind st processId with
  | none => (KillOutcome.notFound, st, false)
  | some p =>
    if p.status ≠ Status.running then
      (KillOutcome.notRunning p.status, st, false)
    else
      match signalErr with
      | some msg => (KillOutcome.killFailed msg, st, true)
      | none => (KillOutcome.killed, regSet st processId (onKill t p), true)

/-- The payloads clearProcesses can answer. -/
inductive ClearResult where
  | notFound (process_id : Str)
  | clearedOne (process_id : Str)
  | clearedCount (n : Nat)
  deriving DecidableEq

/-- The loop of clearProcesses with no id: walk the entries in order,
delete every record whose status is not running, and count the deletions. -/
def clearAll : Registry → Nat × Registry
  | [] => (0, [])
  | kv :: rest =>
    let r := clearAll rest
    if kv.2.status ≠ Status.running then (r.1 + 1, r.2) else (r.1, kv :: r.2)

/-- clearProcesses: with an id, delete exactly that entry if present;
with no id, delete every non-running entry and report the count. -/
def clearProcesses (st : Registry) (processId : Option Str) :
    ClearResult × Registry :=
  match processId with
  | some pid =>
    match regFind st pid with
    | none => (ClearResult.notFound pid, st)
    | some _ => (ClearResult.clearedOne pid, regDelete st pid)
  | none =>
    (ClearResult.clearedCount (clearAll st).1, (clearAll st).2)

/-- A JSON value of the blocking runCommand payloads. -/
inductive JVal where
  | null
  | b (v : Bool)
  | i (v : Int)
  | s (v : Str)
  deriving DecidableEq

/-- The JSON object the close resolver of runCommand builds: success is
true exactly when no timeout fired and the exit code is 0, and the payload
carries the timed_out field. -/
def runCommandCloseResult (command stdout stderr : Str) (timedOut : Bool)
    (code : Option Int) : List (String × JVal) :=
  [("success", JVal.b (!timedOut && decide (code = some 0))),
   ("exit_code", match code with | some c => JVal.i c | none => JVal.null),
   ("stdout", JVal.s (trim stdout)),
   ("stderr", JVal.s (trim stderr)),
   ("timed_out", JVal.b timedOut),
   ("command", JVal.s command)]

/-- The JSON object the error resolver of runCommand builds: a null exit
code, the error message, the buffers captured so far, and no timed_out
field. -/
def runCommandErrorResult (command stdout stderr msg : Str) :
    List (String × JVal) :=
  [("success", JVal.b false),
   ("exit_code", JVal.null),
   ("stdout", JVal.s (trim stdout)),
   ("stderr", JVal.s (trim stderr)),
   ("error", JVal.s msg),
   ("command", JVal.s command)]

/-- The asynchronous state of one tracked record: the stored processInfo,
whether the timeout timer is armed and pending, whether the close event has
fired (which also ends the streams), and whether an error event has fired. -/
structure AsyncState where
  info : ProcessInfo
  timerArmed : Bool
  closed : Bool
  errored : Bool
  deriving DecidableEq

/-- The state of a record right after startCommand: running, with the
timer armed exactly when a positive timeout was requested. -/
def initAsync (command : Str) (timeout : Nat) (freshId : Str) (t : Nat)
    (pid : Option Nat) : AsyncState :=
  { info := initInfo freshId command t pid,
    timerArmed := decide (0 < timeout), closed := false, errored := false }

/-- The asynchronous events that can reach one tracked record. -/
inductive Ev where
  | outData (d : Str)
  | errData (d : Str)
  | timeout
  | close (code : Option Int) (t : Nat)
  | errEv (msg : Str) (t : Nat)
  | kill (t : Nat)
  deriving DecidableEq

/-- One event firing on the loop. Data and close events require the streams
still open; the timeout requires its timer armed (close and error clear the
timer, a kill does not); the kill operation requires a running status (the
guard of killProcess) and a delivered signal. -/
def step (s : AsyncState) : Ev → Option AsyncState
  | Ev.outData d =>
    if s.closed then none else some { s with info := onStdout d s.info }
  | Ev.errData d =>
    if s.closed then none else some { s with info := onStderr d s.info }
  | Ev.timeout =>
    if s.timerArmed then
      some { s with info := onTimeoutCb s.info, timerArmed := false }
    else none
  | Ev.close code t =>
    if s.closed then none
    else some { s with info := onClose code t s.info, timerArmed := false, closed := true }
  | Ev.errEv msg t =>
    if s.errored then none
    else some { s with info := onError msg t s.info, timerArmed := false, errored := true }
  | Ev.kill t =>
    if s.info.status = Status.running then
      some { s with info := onKill t s.info }
    else none

/-- A sequence of events firing in order; none when some event is not
enabled in its state. -/
def runEvents (s : AsyncState) : List Ev → Option AsyncState
  | [] => some s
  | e :: es =>
    match step s e with
    | none => none
    | some s1 => runEvents s1 es

/-- A callback closure writing into the record object it captured: if the
id is still registered, the stored record is replaced by the mutated one. -/
def applyRecordEvent (st : Registry) (processId : Str)
    (f : ProcessInfo → ProcessInfo) : Registry :=
  match regFind st processId with
  | none => st
  | some p => regSet st processId (f p)

/-! Helper lemmas about the string operations. -/

theorem splitOnNl_ne_nil (l : Str) : splitOnNl l ≠ [] := by
  cases l with
  | nil => simp [splitOnNl]
  | cons c cs =>
    by_cases h : c = '\n'
    · simp [splitOnNl, h]
    · cases hsp : splitOnNl cs <;> simp [splitOnNl, h, hsp]

theorem splitOnNl_length (l : Str) : (splitOnNl l).length = l.count '\n' + 1 := by
  induction l with
  | nil => simp [splitOnNl]
  | cons c cs ih =>
    by_cases h : c = '\n'
    · subst h
      simp [splitOnNl, List.count_cons, ih]
    · cases hsp : splitOnNl cs with
      | nil => exact absurd hsp (splitOnNl_ne_nil cs)
      | cons p ps =>
        rw [hsp] at ih
        simp only [splitOnNl, h, if_false, hsp, List.length_cons, List.count_cons,
          beq_iff_eq] at ih ⊢
        omega

theorem count_nl_splitOnNl (l : Str) : ∀ p ∈ splitOnNl l, p.count '\n' = 0 := by
  induction l with
  | nil =>
    intro p hp
    simp [splitOnNl] at hp
    subst hp
    simp
  | cons c cs ih =>
    intro p hp
    by_cases h : c = '\n'
    · subst h
      simp [splitOnNl] at hp
      rcases hp with hp | hp
      · subst hp; simp
      · exact ih p hp
    · cases hsp : splitOnNl cs with
      | nil => exact absurd hsp (splitOnNl_ne_nil cs)
      | cons q qs =>
        simp [splitOnNl, h, hsp] at hp
        rcases hp with hp | hp
        · subst hp
          have hq : q.count '\n' = 0 := by
            refine ih q ?_
            rw [hsp]
            exact List.mem_cons_self ..
          simp [List.count_cons, h, hq]
        · refine ih p ?_
          rw [hsp]
          exact List.mem_cons_of_mem _ hp

theorem joinNl_count_le (ls : List Str) (h : ∀ p ∈ ls, p.count '\n' = 0) :
    (joinNl ls).count '\n' ≤ ls.length - 1 := by
  induction ls with
  | nil => simp [joinNl]
  | cons p ps ih =>
    cases ps with
    | nil => simp [joinNl, h p (List.mem_cons_self ..)]
    | cons q qs =>
      have hp : p.count '\n' = 0 := h p (List.mem_cons_self ..)
      have ihr := ih (fun r hr => h r (List.mem_cons_of_mem _ hr))
      simp only [joinNl, List.count_append, List.count_cons, hp, List.length_cons,
        beq_self_eq_true, if_true] at ihr ⊢
      omega

theorem trim_count_le (l : Str) (c : Char) : (trim l).count c ≤ l.count c := by
  unfold trim
  rw [List.count_reverse]
  calc ((l.dropWhile isJsSpace).reverse.dropWhile isJsSpace).count c
      ≤ (l.dropWhile isJsSpace).reverse.count c :=
        (List.dropWhile_sublist _).count_le c
    _ = (l.dropWhile isJsSpace).count c := List.count_reverse ..
    _ ≤ l.count c := (List.dropWhile_sublist _).count_le c

theorem numLines_trim_jsTail_le (buf : Str) (tail : Nat) (ht : 0 < tail) :
    numLines (trim (jsTail tail buf)) ≤ tail := by
  unfold numLines jsTail
  rw [if_pos ht]
  have hlen : ((splitOnNl buf).drop ((splitOnNl buf).length - tail)).length ≤ tail := by
    rw [List.length_drop]
    omega
  have hfree : ∀ p ∈ (splitOnNl buf).drop ((splitOnNl buf).length - tail),
      p.count '\n' = 0 :=
    fun p hp => count_nl_splitOnNl buf p (List.mem_of_mem_drop hp)
  have hjoin := joinNl_count_le _ hfree
  have htrim := trim_count_le
    (joinNl ((splitOnNl buf).drop ((splitOnNl buf).length - tail))) '\n'
  rw [splitOnNl_length]
  omega

theorem jsTail_zero (s : Str) : jsTail 0 s = s := by
  simp [jsTail]

/-! Helper lemmas about the registry operations. -/

theorem regFind_regSet_self (st : Registry) (k : Str) (p : ProcessInfo) :
    regFind (regSet st k p) k = some p := by
  induction st with
  | nil => simp [regSet, regFind]
  | cons kv rest ih =>
    by_cases h : kv.1 = k
    · simp [regSet, regFind, h]
    · simp [regSet, regFind, h, ih]

theorem getOutput_snd (st : Registry) (processId : Str) (tail : Nat) :
    (getOutput st processId tail).2 = st := by
  unfold getOutput
  cases regFind st processId <;> rfl

theorem clearAll_spec (st : Registry) :
    (clearAll st).2 = st.filter (fun kv => decide (kv.2.status = Status.running))
    ∧ (clearAll st).1 = st.countP (fun kv => decide (kv.2.status ≠ Status.running))
    ∧ (clearAll st).1 + (clearAll st).2.length = st.length := by
  induction st with
  | nil => simp [clearAll]
  | cons kv rest ih =>
    obtain ⟨h1, h2, h3⟩ := ih
    rw [h1, h2] at h3
    simp only [decide_not] at h3
    by_cases h : kv.2.status = Status.running
    · simp [clearAll, h, List.filter_cons, List.countP_cons, h1, h2, decide_not]
      omega
    · simp [clearAll, h, List.filter_cons, List.countP_cons, h1, h2, decide_not]
      omega

/-! The claims. -/

/-- Claim C3: in the close resolver of the blocking runCommand, when the
child reports a close carrying an exit code, success is true exactly when
the code is 0 and no timeout fired before the close; in particular exit
code 0 with no timeout yields success true, exit code 0 and timed_out
false. -/
theorem C3_runBlocking_success (command stdout stderr : Str) (timedOut : Bool)
    (c : Int) :
    ((runCommandCloseResult command stdout stderr timedOut (some c)).lookup "success"
        = some (JVal.b true) ↔ (c = 0 ∧ timedOut = false))
    ∧ (runCommandCloseResult command stdout stderr false (some 0)).lookup "success"
        = some (JVal.b true)
    ∧ (runCommandCloseResult command stdout stderr false (some 0)).lookup "exit_code"
        = some (JVal.i 0)
    ∧ (runCommandCloseResult command stdout stderr false (some 0)).lookup "timed_out"
        = some (JVal.b false) := by
  refine ⟨?_, by simp [runCommandCloseResult, List.lookup],
    by simp [runCommandCloseResult, List.lookup],
    by simp [runCommandCloseResult, List.lookup]⟩
  cases timedOut <;> simp [runCommandCloseResult, List.lookup]

/-- Claim C4 counterexample: the payload the error resolver of runCommand
builds carries exactly these six fields — timed_out, a field of the
declared result shape, is not among them. -/
theorem C4_counterexample :
    (runCommandErrorResult ("definitely-not-a-cmd".data) [] []
        ("spawn err".data)).map Prod.fst
      = ["success", "exit_code", "stdout", "stderr", "error", "command"] := by
  decide

/-- Claim C4 amended: on a launch error the runCommand resolver answers
success false, a null exit code, the error message and the trimmed buffers
captured so far, but its payload omits the timed_out field (which the close
resolver does carry). -/
theorem C4_error_result (command stdout stderr msg : Str) :
    (runCommandErrorResult command stdout stderr msg).lookup "success"
        = some (JVal.b false)
    ∧ (runCommandErrorResult command stdout stderr msg).lookup "exit_code"
        = some JVal.null
    ∧ (runCommandErrorResult command stdout stderr msg).lookup "error"
        = some (JVal.s msg)
    ∧ (runCommandErrorResult command stdout stderr msg).lookup "stdout"
        = some (JVal.s (trim stdout))
    ∧ (runCommandErrorResult command stdout stderr msg).lookup "stderr"
        = some (JVal.s (trim stderr))
    ∧ (runCommandErrorResult command stdout stderr msg).map Prod.fst
        = ["success", "exit_code", "stdout", "stderr", "error", "command"]
    ∧ (runCommandCloseResult command stdout stderr false (some 0)).map Prod.fst
        = ["success", "exit_code", "stdout", "stderr", "timed_out", "command"] := by
  refine ⟨?_, ?_, ?_, ?_, ?_, ?_, ?_⟩ <;>
    simp [runCommandErrorResult, runCommandCloseResult, List.lookup]

/-- Claim C5: getOutput with a positive tail answers at most tail lines per
stream, with tail 0 the full buffers, trimmed only at read time; the stored
record is untouched and a repeated call with the same tail answers the same
payload. -/
theorem C5_getOutput_tail (st : Registry) (processId : Str) (tail : Nat)
    (p : ProcessInfo) (hfind : regFind st processId = some p) :
    (getOutput st processId tail).1 = GetOutputResult.ok (viewOf processId p tail)
    ∧ (0 < tail → numLines (viewOf processId p tail).stdout ≤ tail
        ∧ numLines (viewOf processId p tail).stderr ≤ tail)
    ∧ (tail = 0 → (viewOf processId p tail).stdout = trim p.stdout
        ∧ (viewOf processId p tail).stderr = trim p.stderr)
    ∧ (getOutput st processId tail).2 = st
    ∧ getOutput (getOutput st processId tail).2 processId tail
        = getOutput st processId tail := by
  refine ⟨?_, ?_, ?_, getOutput_snd st processId tail, ?_⟩
  · unfold getOutput
    rw [hfind]
  · intro ht
    exact ⟨numLines_trim_jsTail_le p.stdout tail ht,
      numLines_trim_jsTail_le p.stderr tail ht⟩
  · intro h0
    subst h0
    exact ⟨by simp [viewOf, jsTail_zero], by simp [viewOf, jsTail_zero]⟩
  · rw [getOutput_snd st processId tail]

/-- The concrete record of the C5 witness. -/
def c5rec : ProcessInfo :=
  { initInfo ("p1".data) ("echo hi".data) 3 (some 5) with
    stdout := "a\nb\nc".data, stderr := "x\ny".data }

/-- Claim C5 witness at a record holding three stdout lines, tail 2. -/
theorem C5_witness :
    (getOutput [(("p1".data), c5rec)] ("p1".data) 2).1
        = GetOutputResult.ok (viewOf ("p1".data) c5rec 2)
    ∧ (0 < 2 → numLines (viewOf ("p1".data) c5rec 2).stdout ≤ 2
        ∧ numLines (viewOf ("p1".data) c5rec 2).stderr ≤ 2)
    ∧ (2 = 0 → (viewOf ("p1".data) c5rec 2).stdout = trim c5rec.stdout
        ∧ (viewOf ("p1".data) c5rec 2).stderr = trim c5rec.stderr)
    ∧ (getOutput [(("p1".data), c5rec)] ("p1".data) 2).2 = [(("p1".data), c5rec)]
    ∧ getOutput (getOutput [(("p1".data), c5rec)] ("p1".data) 2).2 ("p1".data) 2
        = getOutput [(("p1".data), c5rec)] ("p1".data) 2 :=
  C5_getOutput_tail [(("p1".data), c5rec)] ("p1".data) 2 c5rec (by decide)

/-- Claim C6: getOutput right after startCommand, on the returned id, never
answers the not-found payload: the record is registered (in state running,
for any spawn outcome) before startCommand returns, so the lookup answers
the running view. -/
theorem C6_start_then_getOutput (st : Registry) (command : Str) (timeout : Nat)
    (freshId : Str) (t : Nat) (pid : Option Nat) (tail : Nat) :
    (getOutput (startCommand st command timeout freshId t pid).2 freshId tail).1
        = GetOutputResult.ok (viewOf freshId (initInfo freshId command t pid) tail)
    ∧ (viewOf freshId (initInfo freshId command t pid) tail).status = Status.running := by
  refine ⟨?_, rfl⟩
  unfold startCommand getOutput
  simp only [regFind_regSet_self]

/-- Claim C10: the payload startCommand answers is the fixed success record
(success true, status running, the fresh id) whatever the spawn outcome
(any pid, including an undefined one); a launch failure only reaches the
stored record through the later error callback, after which getOutput
reports status error and the message. -/
theorem C10_startAsync_return (st : Registry) (command : Str) (timeout : Nat)
    (freshId : Str) (t : Nat) (pid : Option Nat) (msg : Str) (te : Nat) :
    (startCommand st command timeout freshId t pid).1
        = { success := true, process_id := freshId, pid := pid, command := command,
            status := Status.running, message := startMessage }
    ∧ (getOutput (applyRecordEvent (startCommand st command timeout freshId t pid).2
          freshId (onError msg te)) freshId 0).1
        = GetOutputResult.ok
            (viewOf freshId (onError msg te (initInfo freshId command t pid)) 0)
    ∧ (viewOf freshId (onError msg te (initInfo freshId command t pid)) 0).status
        = Status.error
    ∧ (viewOf freshId (onError msg te (initInfo freshId command t pid)) 0).error
        = some msg := by
  refine ⟨rfl, ?_, rfl, rfl⟩
  unfold startCommand applyRecordEvent
  simp only [regFind_regSet_self]
  unfold getOutput
  simp only [regFind_regSet_self]

/-- Claim C7: when the signal send inside killProcess throws, the answer is
the failure payload carrying the underlying message, a signal send was
attempted, and the registry (hence the record, its status and finished_at)
is exactly as before. -/
theorem C7_kill_signal_failure (st : Registry) (processId : Str) (p : ProcessInfo)
    (t : Nat) (msg : Str) (hfind : regFind st processId = some p)
    (hrun : p.status = Status.running) :
    killProcess st processId t (some msg) = (KillOutcome.killFailed msg, st, true) := by
  unfold killProcess
  rw [hfind]
  simp [hrun]

/-- The concrete registry of the C7 witness: one running record. -/
def c7st : Registry := [(("p1".data), initInfo ("p1".data) ("sleep 9".data) 3 (some 5))]

/-- Claim C7 witness: a failed signal send on a running record. -/
theorem C7_witness :
    killProcess c7st ("p1".data) 8 (some ("EPERM".data))
      = (KillOutcome.killFailed ("EPERM".data), c7st, true) :=
  C7_kill_signal_failure c7st ("p1".data)
    (initInfo ("p1".data) ("sleep 9".data) 3 (some 5)) 8 ("EPERM".data)
    (by decide) rfl

/-- Claim C8: killProcess answers the not-found payload on an absent id,
and the not-running payload on a terminal record; on both paths no signal
send is attempted and the registry (hence finished_at) is unchanged. -/
theorem C8_kill_notFound_notRunning (st : Registry) (processId : Str)
    (p : ProcessInfo) (t : Nat) (signalErr : Option Str) :
    (regFind st processId = none →
      killProcess st processId t signalErr = (KillOutcome.notFound, st, false))
    ∧ (regFind st processId = some p → p.status ≠ Status.running →
      killProcess st processId t signalErr
        = (KillOutcome.notRunning p.status, st, false)) := by
  constructor
  · intro h
    unfold killProcess
    rw [h]
  · intro h hne
    unfold killProcess
    rw [h]
    simp [hne]

/-- The concrete completed record of the C8 witness. -/
def c8rec : ProcessInfo :=
  { initInfo ("p2".data) ("echo hi".data) 3 (some 6) with
    status := Status.completed, exit_code := some 0, finished_at := some 4 }

/-- The concrete registry of the C8 witness. -/
def c8st : Registry := [(("p2".data), c8rec)]

/-- Claim C8 witness: an absent id and a completed record. -/
theorem C8_witness :
    killProcess ([] : Registry) ("nope".data) 9 none
        = (KillOutcome.notFound, ([] : Registry), false)
    ∧ killProcess c8st ("p2".data) 9 none
        = (KillOutcome.notRunning Status.completed, c8st, false) :=
  ⟨(C8_kill_notFound_notRunning [] ("nope".data) c8rec 9 none).1 rfl,
   (C8_kill_notFound_notRunning c8st ("p2".data) c8rec 9 none).2 (by decide) (by decide)⟩

/-- Claim C9: clearProcesses with no id keeps exactly the running records
(in order, untouched) and reports as count the number of records removed. -/
theorem C9_clear_all (st : Registry) :
    (clearProcesses st none).2
        = st.filter (fun kv => decide (kv.2.status = Status.running))
    ∧ (clearProcesses st none).1
        = ClearResult.clearedCount
            (st.countP (fun kv => decide (kv.2.status ≠ Status.running)))
    ∧ (clearProcesses st none).1
        = ClearResult.clearedCount (st.length - (clearProcesses st none).2.length) := by
  obtain ⟨h1, h2, h3⟩ := clearAll_spec st
  have hlen : (clearAll st).1 = st.length - (clearAll st).2.length := by omega
  refine ⟨h1, ?_, ?_⟩
  · show ClearResult.clearedCount (clearAll st).1 = _
    rw [h2]
  · show ClearResult.clearedCount (clearAll st).1
        = ClearResult.clearedCount (st.length - (clearAll st).2.length)
    rw [hlen]

/-- The status the close callback leaves is never running: a running record
moves to completed or failed, a terminal one keeps its status. -/
theorem onClose_status_ne_running (code : Option Int) (t : Nat) (p : ProcessInfo) :
    (onClose code t p).status ≠ Status.running := by
  by_cases hr : p.status = Status.running
  · simp only [onClose, hr, if_pos]
    split <;> simp
  · simp only [onClose, if_neg hr]
    exact hr

/-- One step preserves the invariant that a running record has a null
finished_at. -/
theorem step_running_finished (s s' : AsyncState) (e : Ev)
    (hs : s.info.status = Status.running → s.info.finished_at = none)
    (hstep : step s e = some s') :
    s'.info.status = Status.running → s'.info.finished_at = none := by
  cases e with
  | outData d =>
    simp only [step] at hstep
    split at hstep
    · exact absurd hstep (by simp)
    · simp only [Option.some.injEq] at hstep
      subst hstep
      simpa [onStdout] using hs
  | errData d =>
    simp only [step] at hstep
    split at hstep
    · exact absurd hstep (by simp)
    · simp only [Option.some.injEq] at hstep
      subst hstep
      simpa [onStderr] using hs
  | timeout =>
    simp only [step] at hstep
    split at hstep
    · simp only [Option.some.injEq] at hstep
      subst hstep
      intro hst
      exact absurd hst (by simp [onTimeoutCb])
    · exact absurd hstep (by simp)
  | close code t =>
    simp only [step] at hstep
    split at hstep
    · exact absurd hstep (by simp)
    · simp only [Option.some.injEq] at hstep
      subst hstep
      intro hst
      exact absurd hst (onClose_status_ne_running code t s.info)
  | errEv msg t =>
    simp only [step] at hstep
    split at hstep
    · exact absurd hstep (by simp)
    · simp only [Option.some.injEq] at hstep
      subst hstep
      intro hst
      exact absurd hst (by simp [onError])
  | kill t =>
    simp only [step] at hstep
    split at hstep
    · simp only [Option.some.injEq] at hstep
      subst hstep
      intro hst
      exact absurd hst (by simp [onKill])
    · exact absurd hstep (by simp)

/-- Any enabled event sequence preserves the running-implies-null
finished_at invariant. -/
theorem runEvents_running_finished (evs : List Ev) :
    ∀ s s', (s.info.status = Status.running → s.info.finished_at = none) →
      runEvents s evs = some s' →
      (s'.info.status = Status.running → s'.info.finished_at = none) := by
  induction evs with
  | nil =>
    intro s s' hs hrun
    simp only [runEvents] at hrun
    simp only [Option.some.injEq] at hrun
    subst hrun
    exact hs
  | cons e es ih =>
    intro s s' hs hrun
    simp only [runEvents] at hrun
    cases hst : step s e with
    | none =>
      rw [hst] at hrun
      exact absurd hrun (by simp)
    | some s1 =>
      rw [hst] at hrun
      exact ih s1 s' (step_running_finished s s1 e hs hst) hrun

/-- Claim C1 counterexample: a record started with a 100ms timeout is
killed by killProcess (status leaves running, to killed), killProcess does
not clear the timer, and the still-armed timeout callback then fires and
moves the terminal status again, from killed to timed_out. -/
theorem C1_counterexample :
    ((runEvents (initAsync ("sleep 10".data) 100 ("p1".data) 7 (some 42))
        [Ev.kill 9]).map (fun s => s.info.status) = some Status.killed)
    ∧ ((runEvents (initAsync ("sleep 10".data) 100 ("p1".data) 7 (some 42))
        [Ev.kill 9, Ev.timeout]).map (fun s => s.info.status)
        = some Status.timed_out) :=
  ⟨rfl, rfl⟩

/-- Claim C1 amended: once a record has left running, a later close (exit)
callback leaves the status unchanged — but the error and timeout callbacks
carry no status guard: whenever they fire they force the status to error
respectively timed_out, whatever it was; data callbacks never touch it. -/
theorem C1_terminal_status (s s' : AsyncState) (code : Option Int) (t : Nat)
    (msg d : Str) :
    (s.info.status ≠ Status.running → step s (Ev.close code t) = some s' →
      s'.info.status = s.info.status)
    ∧ (step s Ev.timeout = some s' → s'.info.status = Status.timed_out)
    ∧ (step s (Ev.errEv msg t) = some s' → s'.info.status = Status.error)
    ∧ (step s (Ev.outData d) = some s' → s'.info.status = s.info.status) := by
  refine ⟨?_, ?_, ?_, ?_⟩
  · intro hterm hstep
    simp only [step] at hstep
    split at hstep
    · exact absurd hstep (by simp)
    · simp only [Option.some.injEq] at hstep
      subst hstep
      simp [onClose, hterm]
  · intro hstep
    simp only [step] at hstep
    split at hstep
    · simp only [Option.some.injEq] at hstep
      subst hstep
      rfl
    · exact absurd hstep (by simp)
  · intro hstep
    simp only [step] at hstep
    split at hstep
    · exact absurd hstep (by simp)
    · simp only [Option.some.injEq] at hstep
      subst hstep
      rfl
  · intro hstep
    simp only [step] at hstep
    split at hstep
    · exact absurd hstep (by simp)
    · simp only [Option.some.injEq] at hstep
      subst hstep
      rfl

/-- The terminal state of the C1 witness: a record already killed, streams
still open, timer still armed. -/
def c1pre : AsyncState :=
  { info := { initInfo ("p1".data) ("sleep 10".data) 7 (some 42) with
      status := Status.killed, finished_at := some 9 },
    timerArmed := true, closed := false, errored := false }

/-- The state of the C1 witness after the close callback. -/
def c1post : AsyncState :=
  { info := onClose (some 0) 11 c1pre.info, timerArmed := false, closed := true,
    errored := false }

/-- Claim C1 witness: a close callback on the killed record keeps killed. -/
theorem C1_witness : c1post.info.status = c1pre.info.status :=
  (C1_terminal_status c1pre c1post (some 0) 11 [] []).1 (by decide) (by decide)

/-- Claim C2 counterexample: the timeout callback moves the status out of
running, to timed_out, without stamping finished_at — the record sits in a
terminal status with a null finished_at until close or error fires. -/
theorem C2_counterexample :
    (runEvents (initAsync ("sleep 10".data) 100 ("p1".data) 7 (some 42))
        [Ev.timeout]).map (fun s => (s.info.status, s.info.finished_at))
      = some (Status.timed_out, (none : Option Nat)) :=
  rfl

/-- Claim C2 amended: along every enabled event sequence from startCommand,
finished_at is null as long as the status is running (so a non-null
finished_at implies a terminal status); the converse fails, as the timeout
callback reaches timed_out with finished_at still null. -/
theorem C2_running_finished_none (command : Str) (timeout : Nat) (freshId : Str)
    (t : Nat) (pid : Option Nat) (evs : List Ev) (s : AsyncState)
    (hrun : runEvents (initAsync command timeout freshId t pid) evs = some s) :
    s.info.status = Status.running → s.info.finished_at = none :=
  runEvents_running_finished evs (initAsync command timeout freshId t pid) s
    (fun _ => rfl) hrun

/-- Claim C2 witness: the freshly started record is running with a null
finished_at. -/
theorem C2_witness :
    (initAsync ("echo hi".data) 0 ("p1".data) 3 (some 5)).info.finished_at = none :=
  C2_running_finished_none ("echo hi".data) 0 ("p1".data) 3 (some 5) [] _ rfl rfl

end RunCommandMcp
